/-
  Verification of the Game of Life evolution engine
  (repository: JaneSul/ACIT4420-GameOfLife).

  Shallow embedding of the Python modules
    game_of_life/rules.py, game_of_life/patterns.py,
    game_of_life/board.py, game_of_life/errors.py, main.py
  into Lean 4, followed by theorems settling the specification claims.

  Conventions of the embedding:
  * A grid is a `List (List Int)` (Python `List[List[int]]`); cell states
    are integers, alive = 1, dead = 0.
  * Python exceptions are modelled by an explicit error type `PyExc`;
    a Python function that may raise is embedded as `Except PyExc _`
    (or `Except PatternErr _` for the parser, whose only errors are
    `PatternParseError` instances).
  * A pattern "file" is modelled as `Option (List String)`: `none` is a
    missing/unreadable source, `some lines` is its list of text lines
    (without trailing newline characters; Python strips each line anyway).
  * Methods mutating `self` are embedded by explicit state passing: they
    take the `Board` and return the `Board` as it is when the call ends,
    also on the error path, so that "the grid is untouched on failure"
    is a provable statement about the embedding.
-/

import Mathlib

set_option maxHeartbeats 1000000

namespace GameOfLife

/-! ## errors.py -/

/-- Payload of a `PatternParseError` (patterns.py): either the pattern
file was not found, or line `lineNo` (1-based) was malformed; `text` is
the line as interpolated into the message, i.e. the stripped line. -/
inductive PatternErr where
  | fileNotFound : PatternErr
  | malformedLine (lineNo : Nat) (text : String) : PatternErr
  deriving DecidableEq, Repr

/-- The domain error family of errors.py: subclasses of `GameOfLifeError`. -/
inductive GolError where
  | gridSize : GolError
  | patternParse (e : PatternErr) : GolError
  | simulationOverflow : GolError
  deriving DecidableEq, Repr

/-- Python exceptions that the embedded code can raise: either a member
of the `GameOfLifeError` domain family, or a built-in `ValueError` as
raised by `get_rule` (carrying the unknown name and the list of
registered rule names interpolated into its message). -/
inductive PyExc where
  | valueError (name : String) (registered : List String) : PyExc
  | domain (e : GolError) : PyExc
  deriving DecidableEq, Repr

/-- Whether an exception belongs to the `GameOfLifeError` domain family
(errors.py): true exactly for the `domain` constructor. -/
def PyExc.isDomainError : PyExc → Bool
  | .domain _ => true
  | .valueError _ _ => false

/-! ## rules.py -/

/-- The cell grid: Python `List[List[int]]`. -/
abbrev Grid := List (List Int)

/-- Type of rule functions: `(current_state, live_neighbors) -> new state`. -/
abbrev RuleFunc := Int → Int → Int

/-- conway_rule (rules.py lines 61-80): classic B3/S23 rules.
`if current_state == 1: return 1 if live_neighbors in (2,3) else 0
 else: return 1 if live_neighbors == 3 else 0`. -/
def conway_rule (current_state : Int) (live_neighbors : Int) : Int :=
  if current_state = 1 then
    if live_neighbors = 2 ∨ live_neighbors = 3 then 1 else 0
  else
    if live_neighbors = 3 then 1 else 0

/-- The global rule registry `_RULES_REGISTRY` as populated by the
module's own code: the decorator `@register_rule("conway")` on
`conway_rule` is its only registration in the repository. -/
def RULES_REGISTRY : List (String × RuleFunc) := [("conway", conway_rule)]

/-- The keys of the registry, as `list(_RULES_REGISTRY)` produces them. -/
def registeredNames : List String := RULES_REGISTRY.map Prod.fst

/-- get_rule (rules.py lines 42-58): dictionary lookup; a missing key
raises `ValueError(f"Unknown rule set: {name}. Registered: ...")`. -/
def get_rule (name : String) : Except PyExc RuleFunc :=
  match RULES_REGISTRY.lookup name with
  | some f => .ok f
  | none => .error (.valueError name registeredNames)

/-- Cell access `grid[r][c]` for indices known to be in range
(out of range the embedding returns 0, a case the embedded code never
exercises because every access is behind a bounds check). -/
def cellAt (grid : Grid) (r c : Nat) : Int :=
  (grid.getD r []).getD c 0

/-- The eight Moore-neighborhood offsets, in the order the two nested
`for dr in (-1,0,1): for dc in (-1,0,1)` loops visit them, with
`(0, 0)` skipped by the `continue`. -/
def mooreOffsets : List (Int × Int) :=
  [(-1, -1), (-1, 0), (-1, 1), (0, -1), (0, 1), (1, -1), (1, 0), (1, 1)]

/-- count_live_neighbors (rules.py lines 83-109): sums `grid[nr][nc]`
over the eight offsets whose target lies inside
`[0, rows) x [0, cols)`, where `rows = len(grid)` and
`cols = len(grid[0]) if rows > 0 else 0`. -/
def count_live_neighbors (grid : Grid) (r c : Nat) : Int :=
  let rows : Int := grid.length
  let cols : Int := (grid.headD []).length
  mooreOffsets.foldl
    (fun total d =>
      let nr : Int := (r : Int) + d.1
      let nc : Int := (c : Int) + d.2
      if 0 ≤ nr ∧ nr < rows ∧ 0 ≤ nc ∧ nc < cols then
        total + cellAt grid nr.toNat nc.toNat
      else total)
    0

/-- evolve_grid (rules.py lines 112-141): looks the rule up (propagating
its error), then fills a fresh `rows x cols` grid, assigning
`new_grid[r][c] = rule(grid[r][c], count_live_neighbors(grid, r, c))`
for every position exactly once; the double loop writing every cell of
the zero-initialised `new_grid` is embedded as the equivalent
row-by-row, cell-by-cell construction. -/
def evolve_grid (grid : Grid) (rule_name : String := "conway") :
    Except PyExc Grid :=
  match get_rule rule_name with
  | .error e => .error e
  | .ok rule =>
    let rows := grid.length
    let cols := (grid.headD []).length
    .ok ((List.range rows).map fun r =>
      (List.range cols).map fun c =>
        rule (cellAt grid r c) (count_live_neighbors grid r c))

/-! ## patterns.py -/

/-- Whitespace as matched by the regex class `\s` and stripped by
`str.strip()` (modulo Python's `\f`/`\v`, which no claim exercises). -/
def isPySpace (c : Char) : Bool := c.isWhitespace

/-- Drop a (possibly empty) run of whitespace: the regex `\s*`. -/
def dropSpaces (cs : List Char) : List Char := cs.dropWhile isPySpace

/-- Remove leading and trailing whitespace from a character list. -/
def stripChars (cs : List Char) : List Char :=
  ((cs.dropWhile isPySpace).reverse.dropWhile isPySpace).reverse

/-- Python `line.strip()`: surrounding whitespace removed. -/
def pyStrip (s : String) : String := ⟨stripChars s.data⟩

/-- Python truthiness test `not line` on a string: it is empty. -/
def pyIsEmpty (s : String) : Bool := s.data.isEmpty

/-- Python `line.startswith("#")`: the first character is `#`. -/
def pyStartsWithHash (s : String) : Bool :=
  match s.data with
  | c :: _ => c = '#'
  | [] => false

/-- Value of a digit string, as Python `int()` reads the regex group. -/
def digitsVal (ds : List Char) : Nat :=
  ds.foldl (fun n c => 10 * n + (c.toNat - 48)) 0

/-- Consume the regex `(\d+)`: one or more digits, returning their value
and the rest of the input; fails on zero digits. -/
def takeDigits (cs : List Char) : Option (Nat × List Char) :=
  match cs.takeWhile Char.isDigit with
  | [] => none
  | ds => some (digitsVal ds, cs.dropWhile Char.isDigit)

/-- COORD_LINE_RE (patterns.py line 12): whether the (already stripped)
line matches `^\s*\(\s*(\d+)\s*,\s*(\d+)\s*\)\s+([*.])\s*$`, returning
the three captured groups (row, col, symbol) on a match. -/
def matchCoordLine (s : String) : Option (Nat × Nat × Char) :=
  match dropSpaces s.toList with
  | '(' :: cs =>
    match takeDigits (dropSpaces cs) with
    | none => none
    | some (row, cs) =>
      match dropSpaces cs with
      | ',' :: cs =>
        match takeDigits (dropSpaces cs) with
        | none => none
        | some (col, cs) =>
          match dropSpaces cs with
          | ')' :: cs =>
            match cs with
            | c :: cs =>
              if isPySpace c then
                match dropSpaces cs with
                | sym :: cs =>
                  if (sym = '*' ∨ sym = '.') ∧ dropSpaces cs = [] then
                    some (row, col, sym)
                  else none
                | [] => none
              else none
            | [] => none
          | _ => none
      | _ => none
  | _ => none

/-- The loop of parse_pattern_file (patterns.py lines 60-74): walks the
lines carrying the 1-based line counter, the accumulated `live_cells`
and the running `max_row`/`max_col`; skips blank and `#` lines after
stripping; raises on a line the regex rejects; records `*` cells and
discards `.` cells; finally returns `(max_row + 1, max_col + 1,
live_cells)`. -/
def parseLines :
    Nat → List (Nat × Nat) → Nat → Nat → List String →
    Except PatternErr (Nat × Nat × List (Nat × Nat))
  | _, cells, maxRow, maxCol, [] => .ok (maxRow + 1, maxCol + 1, cells)
  | lineNo, cells, maxRow, maxCol, line :: rest =>
    let s := pyStrip line
    if pyIsEmpty s || pyStartsWithHash s then
      parseLines (lineNo + 1) cells maxRow maxCol rest
    else
      match matchCoordLine s with
      | none => .error (.malformedLine lineNo s)
      | some (row, col, sym) =>
        if sym = '*' then
          parseLines (lineNo + 1) (cells ++ [(row, col)])
            (max maxRow row) (max maxCol col) rest
        else
          parseLines (lineNo + 1) cells maxRow maxCol rest

/-- parse_pattern_file (patterns.py lines 19-77): a missing source
raises `PatternParseError`; otherwise the lines are parsed starting at
line number 1 with empty accumulators. -/
def parse_pattern_file :
    Option (List String) → Except PatternErr (Nat × Nat × List (Nat × Nat))
  | none => .error .fileNotFound
  | some lines => parseLines 1 [] 0 0 lines

/-! ## board.py -/

/-- `grid[r][c] = v` as the Python assignment statements perform it
(every assignment in the repository is within bounds; out of range the
embedding leaves the grid unchanged). -/
def setCell (g : Grid) (r c : Nat) (v : Int) : Grid :=
  g.set r ((g.getD r []).set c v)

/-- The Board class (board.py): declared dimensions plus the grid. -/
structure Board where
  rows : Nat
  cols : Nat
  grid : Grid
  deriving DecidableEq, Repr

/-- Board.__init__ (board.py lines 25-44): raises `GridSizeError` when
`rows <= 0 or cols <= 0`, otherwise builds the all-dead grid
`[[0 for _ in range(cols)] for _ in range(rows)]`. -/
def Board.init (rows cols : Int) : Except GolError Board :=
  if rows ≤ 0 ∨ cols ≤ 0 then .error .gridSize
  else .ok ⟨rows.toNat, cols.toNat,
    List.replicate rows.toNat (List.replicate cols.toNat 0)⟩

/-- Board.clear (board.py lines 72-80): the nested loops
`for r in range(self.rows): for c in range(self.cols): grid[r][c] = 0`. -/
def Board.clear (b : Board) : Board :=
  { b with grid :=
      ((List.range b.rows).foldl
        (fun g r => (List.range b.cols).foldl (fun g c => setCell g r c 0) g)
        b.grid) }

/-- Board.load_pattern (board.py lines 44-70): parses the source
(propagating any `PatternParseError`), raises `GridSizeError` when the
inferred size exceeds the declared size, and only then clears the grid
and sets each live coordinate to 1. The returned board is the state of
`self` when the method ends, also on the error paths (which are all
reached before any mutation). -/
def Board.load_pattern (b : Board) (src : Option (List String)) :
    Option GolError × Board :=
  match parse_pattern_file src with
  | .error e => (some (.patternParse e), b)
  | .ok (rows, cols, live_cells) =>
    if rows > b.rows ∨ cols > b.cols then (some .gridSize, b)
    else
      let b := b.clear
      (none, { b with grid := live_cells.foldl (fun g p => setCell g p.1 p.2 1) b.grid })

/-! ## main.py -/

/-- The snapshot/evolve loop of run_simulation (main.py lines 61-66):
`for gen in range(generations + 1)` saves the grid each iteration and
evolves it except after the last; the written snapshots are returned as
a list, with `n` the number of evolutions still to perform. -/
def simLoop (rule_name : String) : Grid → Nat → Except PyExc (List Grid)
  | g, 0 => .ok [g]
  | g, n + 1 =>
    match evolve_grid g rule_name with
    | .error e => .error e
    | .ok g2 =>
      match simLoop rule_name g2 n with
      | .error e => .error e
      | .ok rest => .ok (g :: rest)

/-- run_simulation (main.py lines 15-66): rejects `generations >
10_000` with `SimulationOverflowError` before anything else, then
constructs the board, loads the pattern, and runs the snapshot loop
(`range(generations + 1)` is empty for negative counts). Snapshot file
writing is modelled as returning the list of snapshotted grids. -/
def run_simulation (pattern_src : Option (List String)) (rows cols : Int)
    (generations : Int) (rule_name : String) : Except PyExc (List Grid) :=
  if generations > 10000 then .error (.domain .simulationOverflow)
  else
    match Board.init rows cols with
    | .error e => .error (.domain e)
    | .ok board =>
      match board.load_pattern pattern_src with
      | (some e, _) => .error (.domain e)
      | (none, board) =>
        if generations < 0 then .ok []
        else simLoop rule_name board.grid generations.toNat

/-! ## General helper lemmas -/

/-- `get_rule "conway"` returns `conway_rule`: the registry holds it. -/
theorem get_rule_conway : get_rule "conway" = .ok conway_rule := rfl

/-- Successful rule lookup reduces `evolve_grid` to the grid
comprehension applying the rule at every position. -/
theorem evolve_grid_ok (g : Grid) (name : String) (f : RuleFunc)
    (h : get_rule name = .ok f) :
    evolve_grid g name = .ok ((List.range g.length).map fun r =>
      (List.range (g.headD []).length).map fun c =>
        f (cellAt g r c) (count_live_neighbors g r c)) := by
  unfold evolve_grid
  rw [h]

/-- `conway_rule` only ever returns 0 or 1. -/
theorem conway_rule_binary (s n : Int) :
    conway_rule s n = 0 ∨ conway_rule s n = 1 := by
  unfold conway_rule
  split_ifs <;> simp

/-- `conway_rule` treats every state other than exactly 1 as dead. -/
theorem conway_rule_nonone (s n : Int) (h : s ≠ 1) :
    conway_rule s n = conway_rule 0 n := by
  unfold conway_rule
  simp [h]

/-- Modelled from the spec's words, as the comparison point for
`count_live_neighbors`: the NUMBER of live cells (cells equal to 1)
among the at most 8 Moore-neighborhood positions of (r, c) that lie
inside `[0, rows) x [0, cols)` of the grid. -/
def mooreLiveCount (g : Grid) (r c : Nat) : Nat :=
  (mooreOffsets.filter fun d =>
    decide (0 ≤ (r : Int) + d.1 ∧ (r : Int) + d.1 < (g.length : Int) ∧
      0 ≤ (c : Int) + d.2 ∧ (c : Int) + d.2 < (((g.headD []).length : Nat) : Int) ∧
      cellAt g ((r : Int) + d.1).toNat ((c : Int) + d.2).toNat = 1)).length

/-- A rectangular grid: every row has the length of the first row,
which is what Python reads as `cols`. -/
def Rect (g : Grid) : Prop := ∀ row ∈ g, row.length = (g.headD []).length

/-- A binary grid: every cell is 0 or 1. -/
def Binary (g : Grid) : Prop := ∀ row ∈ g, ∀ v ∈ row, v = 0 ∨ v = 1

/-- In-range cell access lands in the grid's rows. -/
theorem cellAt_mem (g : Grid) (i j : Nat) (_hig : i < g.length)
    (hj : j < (g.getD i []).length) :
    cellAt g i j ∈ g.getD i [] := by
  unfold cellAt
  rw [List.getD_eq_getElem _ _ hj]
  exact List.getElem_mem hj

/-- A row fetched in range is a member of the grid. -/
theorem getD_row_mem (g : Grid) (i : Nat) (hi : i < g.length) :
    g.getD i [] ∈ g := by
  rw [List.getD_eq_getElem _ _ hi]
  exact List.getElem_mem hi

/-- On a binary rectangular grid, every in-range cell is 0 or 1. -/
theorem cellAt_binary (g : Grid) (i j : Nat)
    (hrect : Rect g) (hbin : Binary g)
    (hi : i < g.length) (hj : j < (g.headD []).length) :
    cellAt g i j = 0 ∨ cellAt g i j = 1 := by
  have hrow := getD_row_mem g i hi
  have hlen : (g.getD i []).length = (g.headD []).length := hrect _ hrow
  exact hbin _ hrow _ (cellAt_mem g i j hi (hlen ▸ hj))

/-- The neighbor-summing fold of `count_live_neighbors`, over any list
of offsets, adds exactly the number of in-bounds live neighbors when
the grid is binary and rectangular. -/
theorem count_fold_eq_filter (g : Grid) (r c : Nat)
    (hrect : Rect g) (hbin : Binary g) (l : List (Int × Int)) :
    ∀ a : Int,
      l.foldl (fun total d =>
        if 0 ≤ (r : Int) + d.1 ∧ (r : Int) + d.1 < (g.length : Int) ∧
            0 ≤ (c : Int) + d.2 ∧
            (c : Int) + d.2 < (((g.headD []).length : Nat) : Int) then
          total + cellAt g ((r : Int) + d.1).toNat ((c : Int) + d.2).toNat
        else total) a =
      a + ((l.filter fun d =>
        decide (0 ≤ (r : Int) + d.1 ∧ (r : Int) + d.1 < (g.length : Int) ∧
          0 ≤ (c : Int) + d.2 ∧
          (c : Int) + d.2 < (((g.headD []).length : Nat) : Int) ∧
          cellAt g ((r : Int) + d.1).toNat ((c : Int) + d.2).toNat = 1)).length :
        Int) := by
  induction l with
  | nil => intro a; simp
  | cons d l ih =>
    intro a
    rw [List.foldl_cons, List.filter_cons]
    by_cases hb : 0 ≤ (r : Int) + d.1 ∧ (r : Int) + d.1 < (g.length : Int) ∧
        0 ≤ (c : Int) + d.2 ∧
        (c : Int) + d.2 < (((g.headD []).length : Nat) : Int)
    · rw [if_pos hb]
      have hi : ((r : Int) + d.1).toNat < g.length := by omega
      have hj : ((c : Int) + d.2).toNat < (g.headD []).length := by omega
      rcases cellAt_binary g _ _ hrect hbin hi hj with h0 | h1c
      · have hdec : decide (0 ≤ (r : Int) + d.1 ∧ (r : Int) + d.1 < (g.length : Int) ∧
            0 ≤ (c : Int) + d.2 ∧
            (c : Int) + d.2 < (((g.headD []).length : Nat) : Int) ∧
            cellAt g ((r : Int) + d.1).toNat ((c : Int) + d.2).toNat = 1) = false := by
          refine decide_eq_false fun hcon => ?_
          rw [h0] at hcon
          exact absurd hcon.2.2.2.2 (by decide)
        rw [hdec, h0, add_zero, ih a]
        simp
      · have hdec : decide (0 ≤ (r : Int) + d.1 ∧ (r : Int) + d.1 < (g.length : Int) ∧
            0 ≤ (c : Int) + d.2 ∧
            (c : Int) + d.2 < (((g.headD []).length : Nat) : Int) ∧
            cellAt g ((r : Int) + d.1).toNat ((c : Int) + d.2).toNat = 1) = true := by
          rw [decide_eq_true_eq]
          exact ⟨hb.1, hb.2.1, hb.2.2.1, hb.2.2.2, h1c⟩
        rw [hdec, h1c, ih (a + 1)]
        simp only [if_pos rfl]
        push_cast [List.length_cons]
        ring
    · rw [if_neg hb, ih a]
      have hdec : decide (0 ≤ (r : Int) + d.1 ∧ (r : Int) + d.1 < (g.length : Int) ∧
          0 ≤ (c : Int) + d.2 ∧
          (c : Int) + d.2 < (((g.headD []).length : Nat) : Int) ∧
          cellAt g ((r : Int) + d.1).toNat ((c : Int) + d.2).toNat = 1) = false := by
        refine decide_eq_false fun hcon => ?_
        exact hb ⟨hcon.1, hcon.2.1, hcon.2.2.1, hcon.2.2.2.1⟩
      rw [hdec]
      simp

/-- On a binary rectangular grid, the code's neighbor sum equals the
spec's live-neighbor count. -/
theorem count_live_neighbors_eq_spec (g : Grid) (r c : Nat)
    (hrect : Rect g) (hbin : Binary g) :
    count_live_neighbors g r c = (mooreLiveCount g r c : Int) := by
  unfold count_live_neighbors mooreLiveCount
  rw [count_fold_eq_filter g r c hrect hbin mooreOffsets 0]
  simp

/-- The live-neighbor count never exceeds 8. -/
theorem mooreLiveCount_le_eight (g : Grid) (r c : Nat) :
    mooreLiveCount g r c ≤ 8 := by
  unfold mooreLiveCount
  exact le_trans (List.length_filter_le _ _) (by decide)

/-- `getD` into a map over `range` evaluates the mapped function. -/
theorem getD_map_range {α : Type} (n : Nat) (F : Nat → α) (d : α) (r : Nat)
    (h : r < n) : ((List.range n).map F).getD r d = F r := by
  rw [List.getD_eq_getElem _ _ (by simpa using h)]
  simp

/-- Cell (r, c) of the comprehension built by `evolve_grid`. -/
theorem evolve_cell (g : Grid) (f : RuleFunc) (r c : Nat)
    (hr : r < g.length) (hc : c < (g.headD []).length) :
    cellAt ((List.range g.length).map fun i =>
      (List.range (g.headD []).length).map fun j =>
        f (cellAt g i j) (count_live_neighbors g i j)) r c
      = f (cellAt g r c) (count_live_neighbors g r c) := by
  unfold cellAt
  rw [getD_map_range g.length _ [] r hr]
  rw [getD_map_range (g.headD []).length _ 0 c hc]

/-! ## Claim theorems -/

/-- C1: evolving the 3x3 blinker one step under "conway" yields the
horizontal bar, and a second step restores the original grid, so
`evolve_grid (evolve_grid G) = G` for this G. -/
theorem claim_C1_blinker_period_two :
    evolve_grid [[0,1,0],[0,1,0],[0,1,0]] "conway" =
      .ok [[0,0,0],[1,1,1],[0,0,0]] ∧
    evolve_grid [[0,0,0],[1,1,1],[0,0,0]] "conway" =
      .ok [[0,1,0],[0,1,0],[0,1,0]] ∧
    (evolve_grid [[0,1,0],[0,1,0],[0,1,0]] "conway").bind
        (fun g => evolve_grid g "conway") =
      .ok [[0,1,0],[0,1,0],[0,1,0]] :=
  ⟨rfl, rfl, rfl⟩

/-- C2: for state in {0,1} and neighbor count in [0,8], the "conway"
rule returns 1 exactly when (state=1 and n in {2,3}) or (state=0 and
n=3), and 0 otherwise. -/
theorem claim_C2_conway_truth_table (s n : Int)
    (hs : s = 0 ∨ s = 1) (hn0 : 0 ≤ n) (hn8 : n ≤ 8) :
    conway_rule s n =
      if (s = 1 ∧ (n = 2 ∨ n = 3)) ∨ (s = 0 ∧ n = 3) then 1 else 0 := by
  unfold conway_rule
  rcases hs with h | h <;> subst h <;> split_ifs <;> first | rfl | omega

/-- Witness for C2 at (state, neighbors) = (1, 3). -/
theorem claim_C2_witness :
    conway_rule 1 3 =
      if ((1:Int) = 1 ∧ ((3:Int) = 2 ∨ (3:Int) = 3)) ∨
          ((1:Int) = 0 ∧ (3:Int) = 3) then 1 else 0 :=
  claim_C2_conway_truth_table 1 3 (Or.inr rfl) (by decide) (by decide)

/-- C10: conway_rule returns only 0 or 1 for any integer pair, treats
any state other than exactly 1 as dead, and hence one "conway"
evolution step leaves every cell of the output grid 0 or 1 even when
the input cells are arbitrary integers. -/
theorem claim_C10_binary_normalization :
    (∀ s n : Int, conway_rule s n = 0 ∨ conway_rule s n = 1) ∧
    (∀ s n : Int, s ≠ 1 → conway_rule s n = conway_rule 0 n) ∧
    (∀ (g g' : Grid), evolve_grid g "conway" = .ok g' →
      ∀ row ∈ g', ∀ v ∈ row, v = 0 ∨ v = 1) := by
  refine ⟨conway_rule_binary, conway_rule_nonone, ?_⟩
  intro g g' h row hrow v hv
  rw [evolve_grid_ok g "conway" conway_rule get_rule_conway] at h
  injection h with h
  subst h
  simp only [List.mem_map, List.mem_range] at hrow
  obtain ⟨r, -, rfl⟩ := hrow
  simp only [List.mem_map, List.mem_range] at hv
  obtain ⟨c, -, rfl⟩ := hv
  exact conway_rule_binary _ _

/-- Witness for C10 at state 5 (a non-binary state treated as dead). -/
theorem claim_C10_witness :
    conway_rule 5 3 = conway_rule 0 3 :=
  claim_C10_binary_normalization.2.1 5 3 (by decide)

/-- C3: for every rectangular binary grid and every registered rule,
each output cell of evolve_grid is the rule applied to the input cell
and the number of live cells among the in-bounds Moore neighbors of the
input grid (no wraparound), that count is at most 8, and every cell is
computed from the same input grid. -/
theorem claim_C3_evolution_semantics (g : Grid) (name : String)
    (f : RuleFunc) (hreg : get_rule name = .ok f)
    (hrect : Rect g) (hbin : Binary g) :
    ∃ g', evolve_grid g name = .ok g' ∧
      g'.length = g.length ∧
      (∀ row ∈ g', row.length = (g.headD []).length) ∧
      ∀ r c, r < g.length → c < (g.headD []).length →
        cellAt g' r c = f (cellAt g r c) ((mooreLiveCount g r c : Int)) ∧
        mooreLiveCount g r c ≤ 8 := by
  refine ⟨_, evolve_grid_ok g name f hreg, by simp, ?_, ?_⟩
  · intro row hrow
    simp only [List.mem_map, List.mem_range] at hrow
    obtain ⟨r, -, rfl⟩ := hrow
    simp
  · intro r c hr hc
    refine ⟨?_, mooreLiveCount_le_eight g r c⟩
    rw [evolve_cell g f r c hr hc,
      count_live_neighbors_eq_spec g r c hrect hbin]

/-- Witness for C3 on the blinker grid with the "conway" rule. -/
theorem claim_C3_witness :
    ∃ g', evolve_grid [[0,1,0],[0,1,0],[0,1,0]] "conway" = .ok g' ∧
      g'.length = ([[0,1,0],[0,1,0],[0,1,0]] : Grid).length ∧
      (∀ row ∈ g',
        row.length = (([[0,1,0],[0,1,0],[0,1,0]] : Grid).headD []).length) ∧
      ∀ r c, r < ([[0,1,0],[0,1,0],[0,1,0]] : Grid).length →
        c < (([[0,1,0],[0,1,0],[0,1,0]] : Grid).headD []).length →
        cellAt g' r c =
          conway_rule (cellAt [[0,1,0],[0,1,0],[0,1,0]] r c)
            ((mooreLiveCount [[0,1,0],[0,1,0],[0,1,0]] r c : Int)) ∧
        mooreLiveCount [[0,1,0],[0,1,0],[0,1,0]] r c ≤ 8 :=
  claim_C3_evolution_semantics [[0,1,0],[0,1,0],[0,1,0]] "conway"
    conway_rule rfl (by unfold Rect; decide) (by unfold Binary; decide)

/-- C4: evolve_grid never mutates its (pure, immutably embedded) input
and returns a fresh grid with the input's dimensions: as many rows as
the input and every row of the input's column count; an empty grid
evolves to an empty grid without failing. -/
theorem claim_C4_pure_fresh_dimensions (g : Grid) (name : String)
    (f : RuleFunc) (hreg : get_rule name = .ok f) (hrect : Rect g) :
    ∃ g', evolve_grid g name = .ok g' ∧
      g'.length = g.length ∧
      (∀ row ∈ g', row.length = (g.headD []).length) ∧
      (g = [] → g' = []) := by
  refine ⟨_, evolve_grid_ok g name f hreg, by simp, ?_, ?_⟩
  · intro row hrow
    simp only [List.mem_map, List.mem_range] at hrow
    obtain ⟨r, -, rfl⟩ := hrow
    simp
  · intro h
    subst h
    simp

/-- Maximum of a list of naturals, defaulting to 0 on the empty list:
how the parser's running `max_row`/`max_col` summarise the live cells. -/
def maxList (l : List Nat) : Nat := l.foldr max 0

/-- `maxList` unfolds on cons. -/
theorem maxList_cons (x : Nat) (l : List Nat) :
    maxList (x :: l) = max x (maxList l) := rfl

/-- Every member of a list is bounded by its `maxList`. -/
theorem le_maxList (l : List Nat) : ∀ x ∈ l, x ≤ maxList l := by
  induction l with
  | nil => intro x hx; cases hx
  | cons y l ih =>
    intro x hx
    rw [maxList_cons]
    rcases List.mem_cons.mp hx with rfl | hx
    · exact le_max_left _ _
    · exact le_trans (ih x hx) (le_max_right _ _)

/-- Unfolding equation of the parsing loop on a non-empty line list. -/
theorem parseLines_cons (n : Nat) (cells : List (Nat × Nat)) (mr mc : Nat)
    (line : String) (rest : List String) :
    parseLines n cells mr mc (line :: rest) =
      (if pyIsEmpty (pyStrip line) || pyStartsWithHash (pyStrip line) then
        parseLines (n + 1) cells mr mc rest
      else
        match matchCoordLine (pyStrip line) with
        | none => .error (.malformedLine n (pyStrip line))
        | some (row, col, sym) =>
          if sym = '*' then
            parseLines (n + 1) (cells ++ [(row, col)])
              (max mr row) (max mc col) rest
          else
            parseLines (n + 1) cells mr mc rest) := rfl

/-- Invariant of the parsing loop: a successful parse extends the
accumulated cells with a suffix, and the returned dimensions are the
running maxima joined with the maxima over that suffix, plus one. -/
theorem parseLines_ok_spec (ls : List String) :
    ∀ n cells mr mc r c out,
      parseLines n cells mr mc ls = .ok (r, c, out) →
      ∃ suf, out = cells ++ suf ∧
        r = max mr (maxList (suf.map Prod.fst)) + 1 ∧
        c = max mc (maxList (suf.map Prod.snd)) + 1 := by
  induction ls with
  | nil =>
    intro n cells mr mc r c out h
    unfold parseLines at h
    simp only [Except.ok.injEq, Prod.mk.injEq] at h
    obtain ⟨hr, hc, hout⟩ := h
    exact ⟨[], by simp [hout], by simp [maxList, hr.symm],
      by simp [maxList, hc.symm]⟩
  | cons line rest ih =>
    intro n cells mr mc r c out h
    rw [parseLines_cons] at h
    by_cases hskip :
        (pyIsEmpty (pyStrip line) || pyStartsWithHash (pyStrip line)) = true
    · rw [if_pos hskip] at h
      exact ih (n + 1) cells mr mc r c out h
    · rw [if_neg hskip] at h
      split at h
      · exact absurd h (by simp)
      · rename_i row col sym heq
        by_cases hsym : sym = '*'
        · rw [if_pos hsym] at h
          obtain ⟨suf, hout, hr, hc⟩ :=
            ih (n + 1) (cells ++ [(row, col)]) (max mr row) (max mc col)
              r c out h
          refine ⟨(row, col) :: suf, ?_, ?_, ?_⟩
          · rw [hout]
            simp
          · rw [hr]
            simp only [List.map_cons, maxList_cons]
            omega
          · rw [hc]
            simp only [List.map_cons, maxList_cons]
            omega
        · rw [if_neg hsym] at h
          exact ih (n + 1) cells mr mc r c out h

/-- C5: a successful parse infers rows as (max live row) + 1 and cols
as (max live col) + 1, both maxima defaulting to 0 (so a source with no
live cells infers 1x1); a '.' line passes through the parser state
untouched; parsing the single line "(1,2) *" yields (2, 3, [(1,2)]). -/
theorem claim_C5_size_inference :
    parse_pattern_file (some ["(1,2) *"]) = .ok (2, 3, [(1, 2)]) ∧
    parse_pattern_file (some ["(5,7) ."]) = .ok (1, 1, []) ∧
    (∀ lines r c cells,
      parse_pattern_file (some lines) = .ok (r, c, cells) →
      r = maxList (cells.map Prod.fst) + 1 ∧
      c = maxList (cells.map Prod.snd) + 1) ∧
    (∀ line rest n cells mr mc row col,
      pyIsEmpty (pyStrip line) = false →
      pyStartsWithHash (pyStrip line) = false →
      matchCoordLine (pyStrip line) = some (row, col, '.') →
      parseLines n cells mr mc (line :: rest) =
        parseLines (n + 1) cells mr mc rest) := by
  refine ⟨rfl, rfl, ?_, ?_⟩
  · intro lines r c cells h
    obtain ⟨suf, hout, hr, hc⟩ :=
      parseLines_ok_spec lines 1 [] 0 0 r c cells h
    rw [List.nil_append] at hout
    subst hout
    constructor
    · rw [hr]; omega
    · rw [hc]; omega
  · intro line rest n cells mr mc row col h1 h2 hm
    rw [parseLines_cons, if_neg (by rw [h1, h2]; simp), hm]
    exact if_neg (by decide)

/-- Witness for C5: a '.' line ahead of a '*' line leaves the parser
state untouched, at a fully concrete input. -/
theorem claim_C5_witness :
    parseLines 1 [] 0 0 ["(5,7) .", "(1,2) *"] =
      parseLines 2 [] 0 0 ["(1,2) *"] :=
  claim_C5_size_inference.2.2.2 "(5,7) ." ["(1,2) *"] 1 [] 0 0 5 7
    (by decide) (by decide) (by decide)

/-- Stepping over one line shifts the 1-based position bookkeeping of a
malformed-line error by one. -/
theorem malformed_shift (line : String) (rest : List String) (k n : Nat)
    (t : String) (h1 : k + 1 ≤ n) (h2 : n - (k + 1) < rest.length)
    (h3 : t = pyStrip (rest.getD (n - (k + 1)) "")) :
    k ≤ n ∧ n - k < (line :: rest).length ∧
    t = pyStrip ((line :: rest).getD (n - k) "") := by
  refine ⟨by omega, by simp only [List.length_cons]; omega, ?_⟩
  rw [h3]
  have hnk : n - k = (n - (k + 1)) + 1 := by omega
  rw [hnk, List.getD_cons_succ]

/-- A malformed-line error identifies the offending line: its reported
number is within the input (relative to the starting counter `k`), its
reported text is that line stripped, and that stripped text is neither
blank, nor a comment, nor grammatical. -/
theorem parseLines_error_spec (ls : List String) :
    ∀ k cells mr mc n t,
      parseLines k cells mr mc ls = .error (.malformedLine n t) →
      k ≤ n ∧ n - k < ls.length ∧ t = pyStrip (ls.getD (n - k) "") ∧
      pyIsEmpty t = false ∧ pyStartsWithHash t = false ∧
      matchCoordLine t = none := by
  induction ls with
  | nil =>
    intro k cells mr mc n t h
    unfold parseLines at h
    exact absurd h (by simp)
  | cons line rest ih =>
    intro k cells mr mc n t h
    rw [parseLines_cons] at h
    by_cases hskip :
        (pyIsEmpty (pyStrip line) || pyStartsWithHash (pyStrip line)) = true
    · rw [if_pos hskip] at h
      obtain ⟨h1, h2, h3, h4, h5, h6⟩ := ih (k + 1) cells mr mc n t h
      obtain ⟨g1, g2, g3⟩ := malformed_shift line rest k n t h1 h2 h3
      exact ⟨g1, g2, g3, h4, h5, h6⟩
    · rw [if_neg hskip] at h
      split at h
      · rename_i heq
        simp only [Except.error.injEq, PatternErr.malformedLine.injEq] at h
        obtain ⟨hn, ht⟩ := h
        subst hn
        rw [Bool.or_eq_true] at hskip
        push_neg at hskip
        refine ⟨le_refl k, by simp, ?_, ?_, ?_, ?_⟩
        · rw [Nat.sub_self, List.getD_cons_zero, ← ht]
        · rw [← ht]
          exact Bool.not_eq_true _ ▸ hskip.1
        · rw [← ht]
          exact Bool.not_eq_true _ ▸ hskip.2
        · rw [← ht]
          exact heq
      · rename_i row col sym heq
        by_cases hsym : sym = '*'
        · rw [if_pos hsym] at h
          obtain ⟨h1, h2, h3, h4, h5, h6⟩ := ih (k + 1) _ _ _ n t h
          obtain ⟨g1, g2, g3⟩ := malformed_shift line rest k n t h1 h2 h3
          exact ⟨g1, g2, g3, h4, h5, h6⟩
        · rw [if_neg hsym] at h
          obtain ⟨h1, h2, h3, h4, h5, h6⟩ := ih (k + 1) _ _ _ n t h
          obtain ⟨g1, g2, g3⟩ := malformed_shift line rest k n t h1 h2 h3
          exact ⟨g1, g2, g3, h4, h5, h6⟩

/-- When every line is blank, a comment, or grammatical after
stripping, the parser succeeds. -/
theorem parseLines_total_ok (ls : List String) :
    ∀ k cells mr mc,
      (∀ line ∈ ls, pyIsEmpty (pyStrip line) = true ∨
        pyStartsWithHash (pyStrip line) = true ∨
        (matchCoordLine (pyStrip line)).isSome = true) →
      ∃ v, parseLines k cells mr mc ls = .ok v := by
  induction ls with
  | nil => intro k cells mr mc _; exact ⟨_, rfl⟩
  | cons line rest ih =>
    intro k cells mr mc hall
    have hline := hall line (List.mem_cons_self _ _)
    have hrest : ∀ l ∈ rest, pyIsEmpty (pyStrip l) = true ∨
        pyStartsWithHash (pyStrip l) = true ∨
        (matchCoordLine (pyStrip l)).isSome = true :=
      fun l hl => hall l (List.mem_cons_of_mem _ hl)
    rw [parseLines_cons]
    by_cases hskip :
        (pyIsEmpty (pyStrip line) || pyStartsWithHash (pyStrip line)) = true
    · rw [if_pos hskip]
      exact ih (k + 1) cells mr mc hrest
    · rw [if_neg hskip]
      have hsome : (matchCoordLine (pyStrip line)).isSome = true := by
        rcases hline with h | h | h
        · exact absurd (by rw [h]; rfl) hskip
        · exact absurd (by rw [h]; simp) hskip
        · exact h
      obtain ⟨⟨row, col, sym⟩, hm⟩ := Option.isSome_iff_exists.mp hsome
      rw [hm]
      dsimp only
      by_cases hsym : sym = '*'
      · rw [if_pos hsym]
        exact ih (k + 1) _ _ _ hrest
      · rw [if_neg hsym]
        exact ih (k + 1) _ _ _ hrest

/-- C6 counterexample: on the single literal line "  garbage" the
raised error carries the stripped text "garbage", which differs from
the literal offending line text "  garbage". -/
theorem claim_C6_counterexample :
    parse_pattern_file (some ["  garbage"]) =
      .error (.malformedLine 1 "garbage") ∧
    "garbage" ≠ "  garbage" :=
  ⟨rfl, by decide⟩

/-- C6 as amended: parse_pattern_file fails when the source is
unavailable, and fails on the first non-blank, non-comment line whose
stripped text does not match the coordinate grammar, reporting the
1-based line number and the stripped (not literal) line text; when
every line is blank, a comment, or grammatical, it succeeds; a first
line "garbage" fails naming line 1 with text "garbage". -/
theorem claim_C6_malformed_line_errors :
    parse_pattern_file none = .error .fileNotFound ∧
    (∀ lines n t,
      parse_pattern_file (some lines) = .error (.malformedLine n t) →
      1 ≤ n ∧ n ≤ lines.length ∧ t = pyStrip (lines.getD (n - 1) "") ∧
      pyIsEmpty t = false ∧ pyStartsWithHash t = false ∧
      matchCoordLine t = none) ∧
    (∀ lines, (∀ line ∈ lines, pyIsEmpty (pyStrip line) = true ∨
        pyStartsWithHash (pyStrip line) = true ∨
        (matchCoordLine (pyStrip line)).isSome = true) →
      ∃ v, parse_pattern_file (some lines) = .ok v) ∧
    parse_pattern_file (some ["garbage"]) =
      .error (.malformedLine 1 "garbage") := by
  refine ⟨rfl, ?_, ?_, rfl⟩
  · intro lines n t h
    obtain ⟨h1, h2, h3, h4, h5, h6⟩ :=
      parseLines_error_spec lines 1 [] 0 0 n t h
    exact ⟨h1, by omega, h3, h4, h5, h6⟩
  · intro lines hall
    exact parseLines_total_ok lines 1 [] 0 0 hall

/-- Witness for the amended C6: the malformed-line characterization at
the concrete source ["garbage"]. -/
theorem claim_C6_witness :
    1 ≤ 1 ∧ 1 ≤ (["garbage"] : List String).length ∧
    "garbage" = pyStrip ((["garbage"] : List String).getD (1 - 1) "") ∧
    pyIsEmpty "garbage" = false ∧ pyStartsWithHash "garbage" = false ∧
    matchCoordLine "garbage" = none :=
  claim_C6_malformed_line_errors.2.1 ["garbage"] 1 "garbage" rfl

/-- Repeated single-cell assignment, the shape shared by the loops of
`Board.clear` and `Board.load_pattern`. -/
def setCells (g : Grid) (ps : List (Nat × Nat)) (v : Int) : Grid :=
  ps.foldl (fun g p => setCell g p.1 p.2 v) g

/-- `setCell` keeps the number of rows. -/
theorem setCell_length (g : Grid) (r c : Nat) (v : Int) :
    (setCell g r c v).length = g.length :=
  List.length_set ..

/-- `setCell` leaves other rows alone. -/
theorem setCell_getD_ne (g : Grid) (r c : Nat) (v : Int) (i : Nat)
    (h : i ≠ r) : (setCell g r c v).getD i [] = g.getD i [] := by
  unfold setCell
  rw [List.getD_eq_getElem?_getD, List.getElem?_set_ne (fun hh => h hh.symm),
    ← List.getD_eq_getElem?_getD]

/-- `setCell` updates the addressed row (when it exists). -/
theorem setCell_getD_self (g : Grid) (r c : Nat) (v : Int)
    (h : r < g.length) :
    (setCell g r c v).getD r [] = (g.getD r []).set c v := by
  unfold setCell
  rw [List.getD_eq_getElem?_getD, List.getElem?_set_self h]
  rfl

/-- `setCell` keeps every row's length. -/
theorem setCell_rowlen (g : Grid) (r c : Nat) (v : Int) (i : Nat) :
    ((setCell g r c v).getD i []).length = (g.getD i []).length := by
  by_cases hr : r < g.length
  · by_cases hir : i = r
    · subst hir
      rw [setCell_getD_self g i c v hr, List.length_set]
    · rw [setCell_getD_ne g r c v i hir]
  · unfold setCell
    rw [List.set_eq_of_length_le (by omega)]

/-- Value of a cell after a single assignment. -/
theorem cellAt_setCell (g : Grid) (r c : Nat) (v : Int) (i j : Nat) :
    cellAt (setCell g r c v) i j =
      if i = r ∧ j = c ∧ r < g.length ∧ c < (g.getD r []).length then v
      else cellAt g i j := by
  by_cases hcond : i = r ∧ j = c ∧ r < g.length ∧ c < (g.getD r []).length
  · rw [if_pos hcond]
    obtain ⟨h1, h2, h3, h4⟩ := hcond
    subst h1
    subst h2
    unfold cellAt
    rw [setCell_getD_self g i j v h3, List.getD_eq_getElem?_getD,
      List.getElem?_set_self (by omega)]
    rfl
  · rw [if_neg hcond]
    by_cases h1 : i = r
    · subst h1
      by_cases h3 : i < g.length
      · unfold cellAt
        rw [setCell_getD_self g i c v h3]
        by_cases h2 : j = c
        · subst h2
          have h4 : ¬j < (g.getD i []).length :=
            fun hh => hcond ⟨rfl, rfl, h3, hh⟩
          rw [List.set_eq_of_length_le (by omega)]
        · rw [List.getD_eq_getElem?_getD,
            List.getElem?_set_ne (fun hh => h2 hh.symm),
            ← List.getD_eq_getElem?_getD]
      · unfold cellAt setCell
        rw [List.set_eq_of_length_le (by omega)]
    · unfold cellAt
      rw [setCell_getD_ne g r c v i h1]

/-- `setCells` keeps the number of rows. -/
theorem setCells_length (ps : List (Nat × Nat)) :
    ∀ (g : Grid) (v : Int), (setCells g ps v).length = g.length := by
  induction ps with
  | nil => intro g v; rfl
  | cons p ps ih =>
    intro g v
    show (setCells (setCell g p.1 p.2 v) ps v).length = g.length
    rw [ih, setCell_length]

/-- `setCells` keeps every row's length. -/
theorem setCells_rowlen (ps : List (Nat × Nat)) :
    ∀ (g : Grid) (v : Int) (i : Nat),
      ((setCells g ps v).getD i []).length = ((g.getD i []).length) := by
  induction ps with
  | nil => intro g v i; rfl
  | cons p ps ih =>
    intro g v i
    show ((setCells (setCell g p.1 p.2 v) ps v).getD i []).length =
      (g.getD i []).length
    rw [ih, setCell_rowlen]

/-- Value of an in-range cell after a sequence of assignments: `v` when
its position occurs, the old value otherwise. -/
theorem cellAt_setCells (ps : List (Nat × Nat)) :
    ∀ (g : Grid) (v : Int) (i j : Nat), i < g.length →
      j < (g.getD i []).length →
      cellAt (setCells g ps v) i j =
        if (i, j) ∈ ps then v else cellAt g i j := by
  induction ps with
  | nil =>
    intro g v i j hi hj
    simp [setCells]
  | cons p ps ih =>
    intro g v i j hi hj
    have hi2 : i < (setCell g p.1 p.2 v).length := by rw [setCell_length]; omega
    have hj2 : j < ((setCell g p.1 p.2 v).getD i []).length := by
      rw [setCell_rowlen]; omega
    have step : cellAt (setCells g (p :: ps) v) i j =
        cellAt (setCells (setCell g p.1 p.2 v) ps v) i j := rfl
    rw [step, ih (setCell g p.1 p.2 v) v i j hi2 hj2, cellAt_setCell]
    by_cases hmem : (i, j) ∈ ps
    · rw [if_pos hmem, if_pos (List.mem_cons_of_mem _ hmem)]
    · rw [if_neg hmem]
      by_cases hp : (i, j) = p
      · have h1 : p.1 = i := by rw [← hp]
        have h2 : p.2 = j := by rw [← hp]
        have hrow : (g.getD p.1 []).length = (g.getD i []).length := by
          rw [h1]
        rw [if_pos ⟨h1.symm, h2.symm, by omega, by omega⟩,
          if_pos (by rw [hp]; exact List.mem_cons_self _ _)]
      · rw [if_neg (fun hh => hp (by rw [hh.1, hh.2.1])),
          if_neg (fun hh => (List.mem_cons.mp hh).elim hp hmem)]

/-- The positions visited by the nested loops of `Board.clear`, in
visiting order. -/
def clearPairs (rows cols : Nat) : List (Nat × Nat) :=
  (List.range rows).flatMap fun r => (List.range cols).map fun c => (r, c)

/-- The nested loops of `Board.clear` are the assignment sequence over
`clearPairs`. -/
theorem clear_grid_eq (b : Board) :
    b.clear.grid = setCells b.grid (clearPairs b.rows b.cols) 0 := by
  unfold Board.clear setCells clearPairs
  rw [show ((List.range b.rows).flatMap fun r =>
      (List.range b.cols).map fun c => (r, c)) =
      ((List.range b.rows).map fun r =>
        (List.range b.cols).map fun c => (r, c)).flatten from rfl,
    List.foldl_flatten, List.foldl_map]
  dsimp only
  congr 1
  funext g r
  rw [List.foldl_map]

/-- Membership in the visited-position list is exactly being in range. -/
theorem mem_clearPairs (rows cols i j : Nat) :
    (i, j) ∈ clearPairs rows cols ↔ i < rows ∧ j < cols := by
  unfold clearPairs
  simp only [List.mem_flatMap, List.mem_map, List.mem_range,
    Prod.mk.injEq]
  constructor
  · rintro ⟨a, ha, bb, hb, e1, e2⟩
    subst e1
    subst e2
    exact ⟨ha, hb⟩
  · rintro ⟨hi, hj⟩
    exact ⟨i, hi, j, hj, rfl, rfl⟩

/-- Pointwise row-length bounds transfer to a membership statement. -/
theorem mem_rowlen (g : Grid) (cols : Nat)
    (h : ∀ i, i < g.length → (g.getD i []).length = cols) :
    ∀ row ∈ g, row.length = cols := by
  intro row hrow
  obtain ⟨n, hn, rfl⟩ := List.mem_iff_getElem.mp hrow
  have hh := h n hn
  rw [List.getD_eq_getElem _ _ hn] at hh
  exact hh

/-- `Board.clear` keeps the dimensions and zeroes every in-range cell
of a well-formed board. -/
theorem clear_spec (b : Board) (hlen : b.grid.length = b.rows)
    (hrowp : ∀ i, i < b.rows → (b.grid.getD i []).length = b.cols) :
    b.clear.grid.length = b.rows ∧
    (∀ i, (b.clear.grid.getD i []).length = (b.grid.getD i []).length) ∧
    ∀ i j, i < b.rows → j < b.cols → cellAt b.clear.grid i j = 0 := by
  refine ⟨?_, ?_, ?_⟩
  · rw [clear_grid_eq, setCells_length, hlen]
  · intro i
    rw [clear_grid_eq, setCells_rowlen]
  · intro i j hi hj
    rw [clear_grid_eq,
      cellAt_setCells (clearPairs b.rows b.cols) b.grid 0 i j
        (by omega) (by rw [hrowp i hi]; omega),
      if_pos ((mem_clearPairs b.rows b.cols i j).mpr ⟨hi, hj⟩)]

/-- C7: Board.load_pattern is all-or-nothing: a parser error propagates
with the board untouched; an oversized pattern fails with GridSizeError
with the board untouched; on success the board keeps its dimensions and
holds exactly the parsed live coordinates, everything else dead. -/
theorem claim_C7_load_all_or_nothing (b : Board)
    (src : Option (List String))
    (hlen : b.grid.length = b.rows)
    (hrow : ∀ row ∈ b.grid, row.length = b.cols) :
    (∀ e, parse_pattern_file src = .error e →
      b.load_pattern src = (some (.patternParse e), b)) ∧
    (∀ r c cells, parse_pattern_file src = .ok (r, c, cells) →
      (r > b.rows ∨ c > b.cols) →
      b.load_pattern src = (some .gridSize, b)) ∧
    (∀ r c cells, parse_pattern_file src = .ok (r, c, cells) →
      r ≤ b.rows → c ≤ b.cols →
      ∃ b2, b.load_pattern src = (none, b2) ∧
        b2.rows = b.rows ∧ b2.cols = b.cols ∧
        b2.grid.length = b.rows ∧
        (∀ row ∈ b2.grid, row.length = b.cols) ∧
        ∀ i j, i < b.rows → j < b.cols →
          cellAt b2.grid i j = if (i, j) ∈ cells then 1 else 0) := by
  have hrowp : ∀ i, i < b.rows → (b.grid.getD i []).length = b.cols := by
    intro i hi
    exact hrow _ (getD_row_mem b.grid i (by omega))
  refine ⟨?_, ?_, ?_⟩
  · intro e he
    unfold Board.load_pattern
    rw [he]
  · intro r c cells h hover
    unfold Board.load_pattern
    rw [h]
    dsimp only
    rw [if_pos hover]
  · intro r c cells h hr hc
    unfold Board.load_pattern
    rw [h]
    dsimp only
    rw [if_neg (by omega : ¬(r > b.rows ∨ c > b.cols))]
    obtain ⟨hclen, hcrow, hczero⟩ := clear_spec b hlen hrowp
    refine ⟨_, rfl, rfl, rfl, ?_, ?_, ?_⟩
    · show (setCells b.clear.grid cells 1).length = b.rows
      rw [setCells_length, hclen]
    · show ∀ row ∈ setCells b.clear.grid cells 1, row.length = b.cols
      refine mem_rowlen _ _ ?_
      intro i hi
      rw [setCells_length, hclen] at hi
      rw [setCells_rowlen, hcrow, hrowp i hi]
    · intro i j hi hj
      show cellAt (setCells b.clear.grid cells 1) i j = _
      rw [cellAt_setCells cells b.clear.grid 1 i j (by omega)
        (by rw [hcrow, hrowp i hi]; omega)]
      by_cases hmem : (i, j) ∈ cells
      · rw [if_pos hmem, if_pos hmem]
      · rw [if_neg hmem, if_neg hmem, hczero i j hi hj]

/-- Witness for C7: loading the pattern "(1,2) *" into a 2x3 board of
junk succeeds, clearing everything but cell (1, 2). -/
theorem claim_C7_witness :
    ∃ b2, (Board.mk 2 3 [[7, 7, 7], [7, 7, 7]]).load_pattern
        (some ["(1,2) *"]) = (none, b2) ∧
      b2.rows = (Board.mk 2 3 [[7, 7, 7], [7, 7, 7]]).rows ∧
      b2.cols = (Board.mk 2 3 [[7, 7, 7], [7, 7, 7]]).cols ∧
      b2.grid.length = (Board.mk 2 3 [[7, 7, 7], [7, 7, 7]]).rows ∧
      (∀ row ∈ b2.grid,
        row.length = (Board.mk 2 3 [[7, 7, 7], [7, 7, 7]]).cols) ∧
      ∀ i j, i < (Board.mk 2 3 [[7, 7, 7], [7, 7, 7]]).rows →
        j < (Board.mk 2 3 [[7, 7, 7], [7, 7, 7]]).cols →
        cellAt b2.grid i j =
          if (i, j) ∈ ([(1, 2)] : List (Nat × Nat)) then 1 else 0 :=
  (claim_C7_load_all_or_nothing (Board.mk 2 3 [[7, 7, 7], [7, 7, 7]])
    (some ["(1,2) *"]) rfl (by decide)).2.2 2 3 [(1, 2)] rfl
    (by decide) (by decide)

/-- Witness for C4 on a concrete 2x2 grid with the "conway" rule. -/
theorem claim_C4_witness :
    ∃ g', evolve_grid [[1,0],[0,1]] "conway" = .ok g' ∧
      g'.length = ([[1,0],[0,1]] : Grid).length ∧
      (∀ row ∈ g', row.length = (([[1,0],[0,1]] : Grid).headD []).length) ∧
      (([[1,0],[0,1]] : Grid) = [] → g' = []) :=
  claim_C4_pure_fresh_dimensions [[1,0],[0,1]] "conway" conway_rule rfl
    (by unfold Rect; decide)

/-- `get_rule` either returns the conway rule (for the name "conway")
or raises the `ValueError` listing the registered names: the registry
holds exactly one entry. -/
theorem get_rule_cases (name : String) :
    (name = "conway" ∧ get_rule name = .ok conway_rule) ∨
    get_rule name = .error (.valueError name registeredNames) := by
  by_cases hn : name = "conway"
  · subst hn
    exact Or.inl ⟨rfl, rfl⟩
  · right
    have hb : (name == "conway") = false := beq_eq_false_iff_ne.mpr hn
    unfold get_rule
    rw [show RULES_REGISTRY.lookup name = none from by
      simp [RULES_REGISTRY, List.lookup, hb]]

/-- C8 counterexample: looking up an unregistered name raises a
`ValueError`, which is not a member of the `GameOfLifeError` domain
family (no `UnknownRuleError` subtype exists in errors.py). -/
theorem claim_C8_counterexample :
    get_rule "nonexistent" =
      .error (.valueError "nonexistent" ["conway"]) ∧
    (PyExc.valueError "nonexistent" ["conway"]).isDomainError = false :=
  ⟨rfl, rfl⟩

/-- C8 as amended: for every name absent from the registry, get_rule
fails with a built-in ValueError — outside the domain error family —
whose payload lists all registered rule names, including "conway"; for
every registered name it returns the registered rule function. -/
theorem claim_C8_unknown_rule_error :
    (∀ name, RULES_REGISTRY.lookup name = none →
      get_rule name = .error (.valueError name registeredNames) ∧
      "conway" ∈ registeredNames ∧
      (PyExc.valueError name registeredNames).isDomainError = false) ∧
    (∀ name f, RULES_REGISTRY.lookup name = some f →
      get_rule name = .ok f) := by
  constructor
  · intro name h
    refine ⟨?_, by decide, rfl⟩
    unfold get_rule
    rw [h]
  · intro name f h
    unfold get_rule
    rw [h]

/-- Witness for the amended C8 at the unregistered name "highlife". -/
theorem claim_C8_witness :
    get_rule "highlife" =
      .error (.valueError "highlife" registeredNames) ∧
    "conway" ∈ registeredNames ∧
    (PyExc.valueError "highlife" registeredNames).isDomainError = false :=
  claim_C8_unknown_rule_error.1 "highlife" rfl

/-- Evolution always succeeds under the "conway" rule. -/
theorem evolve_grid_conway_ok (g : Grid) :
    ∃ g2, evolve_grid g "conway" = .ok g2 :=
  ⟨_, evolve_grid_ok g "conway" conway_rule get_rule_conway⟩

/-- An `evolve_grid` failure is always the registry's `ValueError`. -/
theorem evolve_grid_error_shape (g : Grid) (name : String) (e : PyExc)
    (h : evolve_grid g name = .error e) :
    e = .valueError name registeredNames := by
  rcases get_rule_cases name with ⟨-, hok⟩ | herr
  · unfold evolve_grid at h
    rw [hok] at h
    exact absurd h (by simp)
  · unfold evolve_grid at h
    rw [herr] at h
    dsimp only at h
    simp only [Except.error.injEq] at h
    exact h.symm

/-- Unfolding equation of the snapshot loop with evolutions left. -/
theorem simLoop_succ (rule : String) (g : Grid) (n : Nat) :
    simLoop rule g (n + 1) =
      (match evolve_grid g rule with
       | .error e => .error e
       | .ok g2 =>
         match simLoop rule g2 n with
         | .error e => .error e
         | .ok rest => .ok (g :: rest)) := rfl

/-- The snapshot loop always succeeds under the "conway" rule. -/
theorem simLoop_conway_ok (n : Nat) :
    ∀ g, ∃ v, simLoop "conway" g n = .ok v := by
  induction n with
  | zero => intro g; exact ⟨[g], rfl⟩
  | succ n ih =>
    intro g
    obtain ⟨g2, hg2⟩ := evolve_grid_conway_ok g
    obtain ⟨rest, hrest⟩ := ih g2
    refine ⟨g :: rest, ?_⟩
    rw [simLoop_succ, hg2]
    dsimp only
    rw [hrest]

/-- A snapshot-loop failure is always the registry's `ValueError`. -/
theorem simLoop_error_shape (rule : String) (n : Nat) :
    ∀ g e, simLoop rule g n = .error e →
      e = .valueError rule registeredNames := by
  induction n with
  | zero => intro g e h; exact absurd h (by simp [simLoop])
  | succ n ih =>
    intro g e h
    rw [simLoop_succ] at h
    cases hev : evolve_grid g rule with
    | error e2 =>
      rw [hev] at h
      dsimp only at h
      simp only [Except.error.injEq] at h
      subst h
      exact evolve_grid_error_shape g rule e2 hev
    | ok g2 =>
      rw [hev] at h
      dsimp only at h
      cases hsl : simLoop rule g2 n with
      | error e2 =>
        rw [hsl] at h
        dsimp only at h
        simp only [Except.error.injEq] at h
        subst h
        exact ih g2 e2 hsl
      | ok rest =>
        rw [hsl] at h
        exact absurd h (by simp)

/-- A `Board.init` failure is always `GridSizeError`. -/
theorem board_init_error_shape (rows cols : Int) (e : GolError)
    (h : Board.init rows cols = .error e) : e = .gridSize := by
  unfold Board.init at h
  by_cases hrc : rows ≤ 0 ∨ cols ≤ 0
  · rw [if_pos hrc] at h
    simp only [Except.error.injEq] at h
    exact h.symm
  · rw [if_neg hrc] at h
    exact absurd h (by simp)

/-- A `Board.load_pattern` failure is a `GridSizeError` or a
`PatternParseError`, never a `SimulationOverflowError`. -/
theorem load_pattern_error_shape (b : Board) (src : Option (List String))
    (e : GolError) (b2 : Board)
    (h : b.load_pattern src = (some e, b2)) :
    e = .gridSize ∨ ∃ pe, e = .patternParse pe := by
  unfold Board.load_pattern at h
  cases hp : parse_pattern_file src with
  | error pe =>
    rw [hp] at h
    dsimp only at h
    simp only [Prod.mk.injEq, Option.some.injEq] at h
    exact Or.inr ⟨pe, h.1.symm⟩
  | ok t =>
    obtain ⟨r, c, cells⟩ := t
    rw [hp] at h
    dsimp only at h
    by_cases hover : r > b.rows ∨ c > b.cols
    · rw [if_pos hover] at h
      simp only [Prod.mk.injEq, Option.some.injEq] at h
      exact Or.inl h.1.symm
    · rw [if_neg hover] at h
      simp only [Prod.mk.injEq] at h
      exact absurd h.1 (by simp)

/-- The 5x5 board holding the vertical blinker at column 1, as
load_pattern produces it from the blinker pattern source. -/
def blinkerBoard : Board :=
  ⟨5, 5, [[0, 0, 0, 0, 0], [0, 1, 0, 0, 0], [0, 1, 0, 0, 0],
    [0, 1, 0, 0, 0], [0, 0, 0, 0, 0]]⟩

/-- C9: run_simulation fails with SimulationOverflowError exactly when
the requested generation count exceeds 10,000, for every combination of
source, board dimensions and rule name — so the check precedes board
construction and pattern loading; 10,001 generations fail and exactly
10,000 succeed on a valid blinker setup. -/
theorem claim_C9_overflow_guard :
    (∀ src rows cols gens rule,
      run_simulation src rows cols gens rule =
        .error (.domain .simulationOverflow) ↔ gens > 10000) ∧
    run_simulation (some ["(1,1) *", "(2,1) *", "(3,1) *"]) 5 5 10001
      "conway" = .error (.domain .simulationOverflow) ∧
    (∃ v, run_simulation (some ["(1,1) *", "(2,1) *", "(3,1) *"]) 5 5
      10000 "conway" = .ok v) := by
  refine ⟨?_, rfl, ?_⟩
  · intro src rows cols gens rule
    constructor
    · intro h
      by_contra hg
      unfold run_simulation at h
      rw [if_neg hg] at h
      cases hb : Board.init rows cols with
      | error e =>
        rw [hb] at h
        dsimp only at h
        simp only [Except.error.injEq, PyExc.domain.injEq] at h
        rw [board_init_error_shape rows cols e hb] at h
        exact absurd h (by simp)
      | ok b =>
        rw [hb] at h
        dsimp only at h
        cases hl : b.load_pattern src with
        | mk o b2 =>
          rw [hl] at h
          cases o with
          | some e =>
            dsimp only at h
            simp only [Except.error.injEq, PyExc.domain.injEq] at h
            subst h
            rcases load_pattern_error_shape b src _ b2 hl with he | ⟨pe, he⟩ <;>
              exact absurd he (by simp)
          | none =>
            dsimp only at h
            by_cases hneg : gens < 0
            · rw [if_pos hneg] at h
              exact absurd h (by simp)
            · rw [if_neg hneg] at h
              have := simLoop_error_shape rule gens.toNat b2.grid _ h
              exact absurd this (by simp)
    · intro h
      unfold run_simulation
      rw [if_pos h]
  · obtain ⟨v, hv⟩ := simLoop_conway_ok 10000 blinkerBoard.grid
    refine ⟨v, ?_⟩
    unfold run_simulation
    rw [if_neg (by decide : ¬(10000 : Int) > 10000)]
    rw [show Board.init 5 5 = .ok ⟨5, 5, List.replicate 5 (List.replicate 5 0)⟩ from rfl]
    dsimp only
    rw [show (Board.mk 5 5
        (List.replicate 5 (List.replicate 5 0))).load_pattern
        (some ["(1,1) *", "(2,1) *", "(3,1) *"]) =
        (none, blinkerBoard) from by decide]
    dsimp only
    rw [if_neg (by decide : ¬(10000 : Int) < 0)]
    exact hv

/-- Witness for C9: the overflow guard at fully concrete invalid
arguments — the generation bound fires before any other validation. -/
theorem claim_C9_witness :
    run_simulation none (-3) 0 10002 "nonsense" =
      .error (.domain .simulationOverflow) :=
  (claim_C9_overflow_guard.1 none (-3) 0 10002 "nonsense").mpr (by decide)

end GameOfLife
